import Mathlib

/-!
Verification of the embedding-index and retrieval subsystem of the
Youtube_research_agent repository.

The subsystem under study is:
  * `services_vector_store.py` — class `HNSWVectorStore`, a thin wrapper
    around the third-party `hnswlib` ANN index;
  * `orchestrators_master.py` — `MasterOrchestrator.process`, which embeds
    video metadata, stores it in the vector store, and queries neighbors
    seeded by the channel title;
  * `services_embedding_service.py` — `embed_text`, which returns `None`
    for empty/whitespace-only text and otherwise delegates to the external
    `fastembed` backend (also returning `None` on backend failure).

Modelling conventions:
  * Vectors are `List ℚ` (the source uses float32 numpy arrays; rationals
    are the exact idealization, no claim here depends on rounding).
  * The external `hnswlib` index is modelled by its documented, observable
    semantics: `add_items` raises on a dimension mismatch and when the
    element count would exceed `max_elements`; `knn_query` raises on a
    dimension mismatch and when it cannot return `k` results (element
    count below `k`), and otherwise returns the `k` nearest stored
    elements by cosine distance, ascending.  Python exceptions are
    modelled as `Except` errors.
  * Cosine-similarity comparisons are made exactly, without square roots,
    by the sign-and-square comparator `simGe` below.  The numeric float
    distance value that `knn_query` reports is a function of the query and
    the stored vector; no claim depends on its value, so query results
    are modelled as the ordered list of external identifiers.
  * The external embedding backend (`fastembed`) and the LLM are passed as
    function parameters (`backend : String → Option Vec`,
    `llm : String → String`).
-/

/-- Error outcomes of the modelled `hnswlib` calls (Python exceptions). -/
inductive VSError where
  /-- hnswlib: "wrong dimensionality of the vectors". -/
  | dimMismatch : VSError
  /-- hnswlib `add_items`: "The number of elements exceeds the specified limit". -/
  | capacityExceeded : VSError
  /-- hnswlib `knn_query`: "Cannot return the results in a contiguous 2D array"
      — raised when the index holds fewer than `k` retrievable elements. -/
  | cannotReturnK : VSError
deriving DecidableEq, Repr

deriving instance DecidableEq for Except

/-- A vector, `np.ndarray` of floats in the source, idealized as rationals. -/
abbrev Vec := List ℚ

/-- Dot product of two vectors. -/
def dotp (a b : Vec) : ℚ := (List.zipWith (· * ·) a b).sum

/-- Squared Euclidean norm. -/
def normSq (a : Vec) : ℚ := dotp a a

/-- Decides `cos_sim(q, a) ≥ cos_sim(q, b)` exactly, i.e.
`dotp q a / √(normSq a) ≥ dotp q b / √(normSq b)` (the factor `√(normSq q)`
cancels), by sign analysis and squaring, so no square roots are needed.
Equivalently: `a` is at most as far from `q` as `b` in cosine distance. -/
def simGe (q a b : Vec) : Bool :=
  let da := dotp q a
  let db := dotp q b
  if 0 ≤ da ∧ db < 0 then true
  else if da < 0 ∧ 0 ≤ db then false
  else if 0 ≤ da then decide (db ^ 2 * normSq a ≤ da ^ 2 * normSq b)
  else decide (da ^ 2 * normSq b ≤ db ^ 2 * normSq a)

/-- Insert a labelled vector into a list kept sorted by ascending cosine
distance from `q`; `x` is placed before every element it is at least as
near as, so the sort below is stable. -/
def insertBySim (q : Vec) (x : ℕ × Vec) : List (ℕ × Vec) → List (ℕ × Vec)
  | [] => [x]
  | y :: ys => if simGe q x.2 y.2 then x :: y :: ys else y :: insertBySim q x ys

/-- Sort the stored elements by ascending cosine distance from `q`
(stable insertion sort; which order `hnswlib` itself reports equidistant
elements in is library-internal, so nothing proved here relies on the tie
order of this model). -/
def sortBySim (q : Vec) (l : List (ℕ × Vec)) : List (ℕ × Vec) :=
  l.foldr (insertBySim q) []

/-- Model of the `hnswlib.Index.add_items` call for one vector: raises on a
dimension mismatch, raises when the index already holds `maxElements`
elements, and otherwise commits `(label, v)` to the graph. -/
def hnswAddItems (dim maxElements : ℕ) (graph : List (ℕ × Vec)) (v : Vec)
    (label : ℕ) : Except VSError (List (ℕ × Vec)) :=
  if v.length ≠ dim then .error .dimMismatch
  else if maxElements ≤ graph.length then .error .capacityExceeded
  else .ok (graph ++ [(label, v)])

/-- Model of the `hnswlib.Index.knn_query` call: raises on a dimension
mismatch, raises when the index holds fewer than `k` elements, and
otherwise returns the labels of the `k` stored elements nearest to `q`
by cosine distance, ascending. -/
def hnswKnnQuery (dim : ℕ) (graph : List (ℕ × Vec)) (q : Vec) (k : ℕ) :
    Except VSError (List ℕ) :=
  if q.length ≠ dim then .error .dimMismatch
  else if graph.length < k then .error .cannotReturnK
  else .ok (((sortBySim q graph).take k).map Prod.fst)

/-- State of `HNSWVectorStore` (`services_vector_store.py`): the configured
dimension and capacity, the elements committed to the `hnswlib` graph, and
the Python-side list `self.ids` mapping internal labels to video ids. -/
structure HNSWVectorStore where
  dim : ℕ
  max_elements : ℕ
  graph : List (ℕ × Vec)
  ids : List String
deriving DecidableEq, Repr

namespace HNSWVectorStore

/-- `HNSWVectorStore.__init__(dim, max_elements)`: a fresh, empty index. -/
def mk0 (dim max_elements : ℕ) : HNSWVectorStore :=
  { dim := dim, max_elements := max_elements, graph := [], ids := [] }

/-- `HNSWVectorStore.add(embedding, video_id)`.  Mirrors the source order of
effects: if `embedding is None` return silently; otherwise `idx = len(ids)`,
`ids.append(video_id)` FIRST, then `index.add_items(...)`, whose exception
(if any) propagates with `ids` already grown.  Returns the call outcome
together with the post-call state. -/
def add (s : HNSWVectorStore) (embedding : Option Vec) (video_id : String) :
    Except VSError Unit × HNSWVectorStore :=
  match embedding with
  | none => (.ok (), s)
  | some v =>
    let idx := s.ids.length
    let s' := { s with ids := s.ids ++ [video_id] }
    match hnswAddItems s.dim s.max_elements s.graph v idx with
    | .error e => (.error e, s')
    | .ok g => (.ok (), { s' with graph := g })

/-- `HNSWVectorStore.search(embedding, k)`.  Mirrors the source: if
`embedding is None or len(self.ids) == 0` return `[]`; otherwise run
`knn_query` (whose exception propagates) and keep `self.ids[i]` for each
returned label `i` with `i < len(self.ids)`.  `search` never mutates the
store, so only the call outcome is returned. -/
def search (s : HNSWVectorStore) (embedding : Option Vec) (k : ℕ) :
    Except VSError (List String) :=
  match embedding with
  | none => .ok []
  | some v =>
    if s.ids.length = 0 then .ok []
    else
      match hnswKnnQuery s.dim s.graph v k with
      | .error e => .error e
      | .ok labels =>
        .ok ((labels.filter (fun i => i < s.ids.length)).map
              (fun i => s.ids.getD i ""))

/-- A sequence of `add` calls, one per `(vector, id)` pair, stopping at the
first raised exception (as a Python loop would). -/
def addSeq (s : HNSWVectorStore) :
    List (Vec × String) → Except VSError Unit × HNSWVectorStore
  | [] => (.ok (), s)
  | (v, vid) :: rest =>
    match s.add (some v) vid with
    | (.ok _, s') => addSeq s' rest
    | (.error e, s') => (.error e, s')

end HNSWVectorStore

/-- A video metadata record as consumed by `MasterOrchestrator.process`
(the `v.get("id")`, `v.get("title", "")`, `v.get("description", "")`
fields of the source's video dicts). -/
structure Video where
  id : String
  title : String
  description : String
deriving DecidableEq, Repr

/-- The channel record, reduced to the fields `process` reads:
`channel.get("snippet", {}).get("title", "") or channel.get("title", "")`
and the corresponding description. -/
structure Channel where
  title : String
  description : String
deriving DecidableEq, Repr

/-- Python `str.strip()`: drop leading and trailing whitespace.  (Stated on
the character list so that it reduces in the kernel; Lean's own
`String.trim` is definitionally opaque.) -/
def pyStrip (s : String) : String :=
  ⟨((s.data.dropWhile Char.isWhitespace).reverse.dropWhile
      Char.isWhitespace).reverse⟩

/-- Python slicing `s[:n]` on a string. -/
def pyTake (s : String) (n : ℕ) : String := ⟨s.data.take n⟩

/-- Python `"\n".join(lines)`. -/
def joinNL : List String → String
  | [] => ""
  | [x] => x
  | x :: xs => x ++ "\n" ++ joinNL xs

/-- `embed_text` (`services_embedding_service.py`): returns `None` when the
text is empty or whitespace-only (`if not text or not text.strip()`),
otherwise delegates to the external `fastembed` backend, which itself may
fail and yield `None`; the backend is the parameter `backend`. -/
def embed_text (backend : String → Option Vec) (text : String) : Option Vec :=
  if pyStrip text = "" then none else backend text

/-- The text embedded for a video: `(title + "\n\n" + description).strip()`. -/
def videoText (v : Video) : String :=
  pyStrip (v.title ++ "\n\n" ++ v.description)

/-- The embed-and-store loop of `MasterOrchestrator.process`: for each
sampled video, embed its text; on `None` skip the video; otherwise
`vstore.add(emb, vid)` and `stored += 1`.  An exception raised by `add`
aborts the loop and propagates (there is no `try` around it in the
source).  Returns the outcome, the final store, and the value of the
`stored` counter. -/
def storeLoop (backend : String → Option Vec) :
    List Video → HNSWVectorStore → ℕ →
      Except VSError Unit × HNSWVectorStore × ℕ
  | [], s, n => (.ok (), s, n)
  | v :: rest, s, n =>
    match embed_text backend (videoText v) with
    | none => storeLoop backend rest s n
    | some emb =>
      match s.add (some emb) v.id with
      | (.ok _, s') => storeLoop backend rest s' (n + 1)
      | (.error e, s') => (.error e, s', n)

/-- The video sample `process` works on:
`MAX_VIDEOS = min(len(videos), max_videos_for_llm)` then
`videos_sample = videos[:MAX_VIDEOS]`. -/
def videosSample (videos : List Video) (maxVideosSetting : ℕ) : List Video :=
  videos.take (min videos.length maxVideosSetting)

/-- `MasterOrchestrator._build_prompt`, up to string formatting: the prompt
concatenates the channel block (description clipped to 300 chars), the
sampled videos (titles clipped to 120, descriptions to 240 chars), the
neighbor ids, a fixed TASK instruction, and is clipped to 8000 chars.
The float `dist=` annotations of the source are omitted because query
results are modelled as identifier lists (see module comment). -/
def build_prompt (channel : Channel) (videos : List Video)
    (neighbors : List String) : String :=
  let chSummary := "Channel: " ++ channel.title ++ "\nDescription: " ++
    pyTake channel.description 300
  let videoLines := videos.map (fun v =>
    "- " ++ pyTake v.title 120 ++ "\n  " ++ pyTake v.description 240)
  let neighborLines :=
    if neighbors ≠ [] then
      "\nTop semantic neighbors (video ids & similarity):" ::
        neighbors.map (fun vid => "- " ++ vid)
    else []
  let lines := [chSummary, "\nVideos (sample):"] ++ videoLines ++
    neighborLines ++ ["\nTASK: produce a concise JSON object."]
  pyTake (joinNL lines) 8000

/-- The caller-visible result of a non-raising `process` call: the dict
`{"report": ..., "seed_neighbors": ...}`.  The `report` holds the LLM
output (the source additionally tries `json.loads` on it, which only
changes the report's shape, not its information; JSON parsing is outside
the modelled core). -/
structure ProcResult where
  report : String
  seed_neighbors : List String
deriving DecidableEq, Repr

/-- `MasterOrchestrator.process(channel, videos, top_k)`
(`orchestrators_master.py`): truncate `videos` to the sample, embed and
store each sampled video (skipping embedding misses), embed the channel
title as the seed if the title is non-empty, query the store for `top_k`
neighbors if the seed embeds, and return the report and the neighbor list.
Exceptions raised by `add` or `search` propagate to the caller, with the
store in its (possibly partially mutated) state at that point.  Parameters:
`backend` — the external embedding model, `llm` — the external text
generator, `maxVideosSetting` — `getattr(settings, "max_videos_for_llm", 12)`
(the settings class defines no such field, so the default 12 applies in
deployment; it is kept as a parameter). -/
def process (backend : String → Option Vec) (llm : String → String)
    (maxVideosSetting : ℕ) (channel : Channel) (videos : List Video)
    (top_k : ℕ) (store : HNSWVectorStore) :
    Except VSError ProcResult × HNSWVectorStore :=
  let sample := videosSample videos maxVideosSetting
  match storeLoop backend sample store 0 with
  | (.error e, s', _) => (.error e, s')
  | (.ok _, s', _) =>
    let seed_emb :=
      if channel.title ≠ "" then embed_text backend channel.title else none
    let neighborsRes :=
      match seed_emb with
      | some emb => s'.search (some emb) top_k
      | none => .ok []
    match neighborsRes with
    | .error e => (.error e, s')
    | .ok neighbors =>
      (.ok { report := llm (build_prompt channel sample neighbors),
             seed_neighbors := neighbors }, s')

/-- The source's `stored` counter, observable through the log line
`"Stored {stored} metadata embeddings in HNSW."` at the end of the loop
(it is not part of the value `process` returns). -/
def processStored (backend : String → Option Vec) (maxVideosSetting : ℕ)
    (videos : List Video) (store : HNSWVectorStore) : ℕ :=
  (storeLoop backend (videosSample videos maxVideosSetting) store 0).2.2

/-! ### Concrete fixtures used by witnesses and counterexamples -/

/-- A deterministic stand-in embedding backend for concrete runs: every
non-empty text embeds to the one-dimensional vector `[1]`. -/
def demoBackend : String → Option Vec :=
  fun t => if t = "" then none else some [1]

/-- A constant stand-in LLM for concrete runs. -/
def demoLlm : String → String := fun _ => "report"

/-- A channel whose title is empty (so no seed embedding is attempted). -/
def chEmpty : Channel := { title := "", description := "" }

/-- A channel with a non-empty title (a seed embedding is attempted). -/
def chSeed : Channel := { title := "seed", description := "" }

/-- A video with non-empty text. -/
def vidA : Video := { id := "a", title := "t1", description := "d1" }

/-- A video whose title and description are empty, hence empty text. -/
def vidB : Video := { id := "b", title := "", description := "" }

/-- Another video with non-empty text. -/
def vidC : Video := { id := "c", title := "t3", description := "d3" }

/-! ### Supporting lemmas -/

/-- A failed `add` on an actual vector reports its error but has already
appended the external identifier to `self.ids`; the graph, dimension and
capacity are untouched. -/
theorem add_error_state (s : HNSWVectorStore) (v : Vec) (vid : String)
    (e : VSError) (h : (s.add (some v) vid).1 = .error e) :
    (s.add (some v) vid).2.graph = s.graph ∧
    (s.add (some v) vid).2.ids = s.ids ++ [vid] ∧
    (s.add (some v) vid).2.dim = s.dim ∧
    (s.add (some v) vid).2.max_elements = s.max_elements := by
  unfold HNSWVectorStore.add at *
  cases hcall : hnswAddItems s.dim s.max_elements s.graph v s.ids.length with
  | error e' => simp [hcall]
  | ok g => simp [hcall] at h

/-- A successful `add` on an actual vector appends the identifier and
commits the vector at label `len(ids)`. -/
theorem add_ok_state (s : HNSWVectorStore) (v : Vec) (vid : String)
    (h : (s.add (some v) vid).1 = .ok ()) :
    (s.add (some v) vid).2.graph = s.graph ++ [(s.ids.length, v)] ∧
    (s.add (some v) vid).2.ids = s.ids ++ [vid] ∧
    (s.add (some v) vid).2.dim = s.dim ∧
    (s.add (some v) vid).2.max_elements = s.max_elements := by
  unfold HNSWVectorStore.add at *
  cases hcall : hnswAddItems s.dim s.max_elements s.graph v s.ids.length with
  | error e' => simp [hcall] at h
  | ok g =>
    have hg : g = s.graph ++ [(s.ids.length, v)] := by
      unfold hnswAddItems at hcall
      by_cases h1 : v.length ≠ s.dim
      · simp [h1] at hcall
      · by_cases h2 : s.max_elements ≤ s.graph.length
        · simp [h1, h2] at hcall
        · simp [h1, h2] at hcall; exact hcall.symm
    subst hg
    simp [hcall]

/-- `add` succeeds exactly when the vector has the configured dimension and
the graph is below capacity. -/
theorem add_ok_iff (s : HNSWVectorStore) (v : Vec) (vid : String) :
    (s.add (some v) vid).1 = .ok () ↔
      v.length = s.dim ∧ s.graph.length < s.max_elements := by
  unfold HNSWVectorStore.add hnswAddItems
  by_cases h1 : v.length ≠ s.dim
  · simp [h1]
  · by_cases h2 : s.max_elements ≤ s.graph.length
    · simp [h1, h2, Nat.not_lt.mpr h2]
    · simp [h1, h2, Nat.lt_of_not_le h2, not_not.mp h1]

/-- Characterization of a run of `addSeq` in which every call stays within
dimension and capacity: every `add` succeeds, identifiers are appended in
order, and the graph grows by exactly one element per item. -/
theorem addSeq_ok_of (items : List (Vec × String)) (s : HNSWVectorStore)
    (hdim : ∀ p ∈ items, (p.1).length = s.dim)
    (hsync : s.graph.length = s.ids.length)
    (hcap : s.ids.length + items.length ≤ s.max_elements) :
    (s.addSeq items).1 = .ok () ∧
    (s.addSeq items).2.ids = s.ids ++ items.map Prod.snd ∧
    (s.addSeq items).2.graph.length = s.ids.length + items.length ∧
    (s.addSeq items).2.dim = s.dim ∧
    (s.addSeq items).2.max_elements = s.max_elements := by
  induction items generalizing s with
  | nil => simp [HNSWVectorStore.addSeq]; omega
  | cons p rest ih =>
    obtain ⟨v, vid⟩ := p
    have hcap' : s.ids.length + rest.length + 1 ≤ s.max_elements := by
      simp at hcap; omega
    have hv : v.length = s.dim := hdim (v, vid) (by simp)
    have hok : (s.add (some v) vid).1 = .ok () :=
      (add_ok_iff s v vid).mpr ⟨hv, by rw [hsync]; omega⟩
    have hstate := add_ok_state s v vid hok
    rcases hcl : s.add (some v) vid with ⟨r, s'⟩
    rw [hcl] at hok hstate
    simp only at hok hstate
    subst hok
    have hseq : s.addSeq ((v, vid) :: rest) = s'.addSeq rest := by
      simp only [HNSWVectorStore.addSeq, hcl]
    have hrec := ih s'
      (by intro q hq; rw [hstate.2.2.1]; exact hdim q (by simp [hq]))
      (by rw [hstate.1, hstate.2.1]; simp [hsync])
      (by rw [hstate.2.1, hstate.2.2.2]; simp; omega)
    rw [hseq]
    refine ⟨hrec.1, ?_, ?_, ?_, ?_⟩
    · rw [hrec.2.1, hstate.2.1]; simp
    · rw [hrec.2.2.1, hstate.2.1]; simp; omega
    · rw [hrec.2.2.2.1, hstate.2.2.1]
    · rw [hrec.2.2.2.2, hstate.2.2.2]

/-- A run of `addSeq` that reports success keeps the label discipline: the
identifier list extends by the inserted identifiers in order, and the graph
labels remain exactly `0, 1, ..., len(ids) - 1`. -/
theorem addSeq_ok_labels (items : List (Vec × String)) (s : HNSWVectorStore)
    (hok : (s.addSeq items).1 = .ok ())
    (hlab : s.graph.map Prod.fst = List.range s.ids.length) :
    (s.addSeq items).2.ids = s.ids ++ items.map Prod.snd ∧
    (s.addSeq items).2.graph.map Prod.fst =
      List.range (s.addSeq items).2.ids.length := by
  induction items generalizing s with
  | nil => simpa [HNSWVectorStore.addSeq] using hlab
  | cons p rest ih =>
    obtain ⟨v, vid⟩ := p
    rcases hcl : s.add (some v) vid with ⟨r, s'⟩
    cases r with
    | error e =>
      have : (s.addSeq ((v, vid) :: rest)).1 = .error e := by
        simp only [HNSWVectorStore.addSeq, hcl]
      rw [this] at hok
      simp at hok
    | ok u =>
      have hokadd : (s.add (some v) vid).1 = .ok () := by rw [hcl]
      have hstate := add_ok_state s v vid hokadd
      rw [hcl] at hstate
      simp only at hstate
      have hseq : s.addSeq ((v, vid) :: rest) = s'.addSeq rest := by
        simp only [HNSWVectorStore.addSeq, hcl]
      rw [hseq] at hok ⊢
      have hlab' : s'.graph.map Prod.fst = List.range s'.ids.length := by
        rw [hstate.1, hstate.2.1]
        simp [hlab, List.range_succ]
      have hrec := ih s' hok hlab'
      refine ⟨?_, hrec.2⟩
      rw [hrec.1, hstate.2.1]
      simp

/-- Soundness of `search` results: at most `k` pairs come back, and every
returned identifier is an element of `self.ids`. -/
theorem search_sound (s : HNSWVectorStore) (q : Vec) (k : ℕ)
    (res : List String) (h : s.search (some q) k = .ok res) :
    res.length ≤ k ∧ ∀ vid ∈ res, vid ∈ s.ids := by
  unfold HNSWVectorStore.search at h
  by_cases hemp : s.ids.length = 0
  · simp [hemp] at h
    subst h
    simp
  · simp only [hemp, if_false] at h
    cases hq : hnswKnnQuery s.dim s.graph q k with
    | error e => rw [hq] at h; simp at h
    | ok labels =>
      rw [hq] at h
      simp only [Except.ok.injEq] at h
      subst h
      have hlen : labels.length ≤ k := by
        unfold hnswKnnQuery at hq
        by_cases hd : q.length ≠ s.dim
        · simp [hd] at hq
        · by_cases hk : s.graph.length < k
          · simp [hd, hk] at hq
          · simp only [hd, if_false, hk] at hq
            simp only [Except.ok.injEq] at hq
            rw [← hq]
            simp [List.length_take]
      constructor
      · calc ((labels.filter (fun i => i < s.ids.length)).map
              (fun i => s.ids.getD i "")).length
            = (labels.filter (fun i => i < s.ids.length)).length := by simp
          _ ≤ labels.length := List.length_filter_le _ _
          _ ≤ k := hlen
      · intro vid hvid
        rw [List.mem_map] at hvid
        obtain ⟨i, hif, hge⟩ := hvid
        have hilt : i < s.ids.length := by
          have := (List.mem_filter.mp hif).2
          simpa using this
        rw [← hge, List.getD_eq_getElem s.ids "" hilt]
        exact List.getElem_mem hilt

/-! ### Claims -/

/-- Claim C1 (code_bug evidence).  The claim says a query with `k` larger
than the current entry count returns all current entries and never errors.
In the source, `search` passes `k` through to `hnswlib.knn_query`
unclamped, and `knn_query` raises when the index holds fewer than `k`
elements.  Concretely: after one successful insertion the index holds one
entry, and a matching query with `k = 2` raises instead of returning that
entry. -/
theorem search_k_above_count_errors :
    (((HNSWVectorStore.mk0 1 5).add (some [1]) "a").1 = .ok ()) ∧
    ((HNSWVectorStore.mk0 1 5).add (some [1]) "a").2.ids.length = 1 ∧
    ((HNSWVectorStore.mk0 1 5).add (some [1]) "a").2.search (some [1]) 2 =
      .error .cannotReturnK := by decide

/-- Claim C2 (counterexample).  A failed insertion is claimed to leave the
index exactly as it was.  Concretely, on an index of capacity 1 already
holding `"a"`, inserting `"b"` fails with the capacity error, yet the
label-to-identifier list has become `["a", "b"]` — the failed call
mutated it. -/
theorem add_fail_mutates_ids :
    ((((HNSWVectorStore.mk0 1 1).add (some [1]) "a").2.add (some [2]) "b").1 =
      .error .capacityExceeded) ∧
    (((HNSWVectorStore.mk0 1 1).add (some [1]) "a").2.add
        (some [2]) "b").2.ids = ["a", "b"] ∧
    ((HNSWVectorStore.mk0 1 1).add (some [1]) "a").2.ids = ["a"] := by decide

/-- Claim C2 (amended).  `search` never mutates the store (it is read-only
in the source, which the model reflects by returning no state), and a
failed `add` leaves the ANN graph — hence the entry count — and the
configuration unchanged; but it does append the attempted external
identifier to the label-to-identifier list, because `self.ids.append`
precedes the fallible `add_items` call.  So failure atomicity holds for
everything except the identifier list. -/
theorem add_fail_graph_unchanged_ids_appended (s : HNSWVectorStore)
    (v : Vec) (vid : String) (e : VSError)
    (h : (s.add (some v) vid).1 = .error e) :
    (s.add (some v) vid).2.graph = s.graph ∧
    (s.add (some v) vid).2.ids = s.ids ++ [vid] ∧
    (s.add (some v) vid).2.dim = s.dim ∧
    (s.add (some v) vid).2.max_elements = s.max_elements :=
  add_error_state s v vid e h

/-- Witness for the amended C2 theorem at a concrete failing insertion. -/
theorem add_fail_graph_unchanged_ids_appended_witness :
    ((((HNSWVectorStore.mk0 1 1).add (some [1]) "a").2.add
        (some [2]) "b").1 = .error .capacityExceeded) ∧
    ((((HNSWVectorStore.mk0 1 1).add (some [1]) "a").2.add
        (some [2]) "b").2.graph =
      ((HNSWVectorStore.mk0 1 1).add (some [1]) "a").2.graph ∧
    (((HNSWVectorStore.mk0 1 1).add (some [1]) "a").2.add
        (some [2]) "b").2.ids =
      ((HNSWVectorStore.mk0 1 1).add (some [1]) "a").2.ids ++ ["b"] ∧
    (((HNSWVectorStore.mk0 1 1).add (some [1]) "a").2.add
        (some [2]) "b").2.dim =
      ((HNSWVectorStore.mk0 1 1).add (some [1]) "a").2.dim ∧
    (((HNSWVectorStore.mk0 1 1).add (some [1]) "a").2.add
        (some [2]) "b").2.max_elements =
      ((HNSWVectorStore.mk0 1 1).add (some [1]) "a").2.max_elements) :=
  ⟨by decide,
   add_fail_graph_unchanged_ids_appended _ [2] "b" .capacityExceeded (by decide)⟩

/-- Claim C5 (counterexample).  Insert and Query with a wrong-length vector
are claimed to always fail with a dimension error, at every fill level.
Concretely, on an empty index of dimension 2, a query with the
1-dimensional vector `[1]` returns the empty list with no error, because
the `len(self.ids) == 0` early return precedes any dimension check. -/
theorem search_wrong_dim_empty_ok :
    (([1] : Vec).length ≠ (HNSWVectorStore.mk0 2 5).dim) ∧
    (HNSWVectorStore.mk0 2 5).search (some [1]) 3 = .ok [] := by decide

/-- Claim C5 (amended).  With a vector whose length differs from the
configured dimension: `add` always fails with the dimension error
(regardless of fill level), and `search` fails with the dimension error
whenever the index is non-empty — but on an empty index it returns the
empty list without error. -/
theorem dim_mismatch_behavior (s : HNSWVectorStore) (v : Vec) (vid : String)
    (k : ℕ) (hd : v.length ≠ s.dim) :
    (s.add (some v) vid).1 = .error .dimMismatch ∧
    (s.ids ≠ [] → s.search (some v) k = .error .dimMismatch) ∧
    (s.ids = [] → s.search (some v) k = .ok []) := by
  refine ⟨?_, ?_, ?_⟩
  · unfold HNSWVectorStore.add hnswAddItems
    simp [hd]
  · intro hne
    unfold HNSWVectorStore.search hnswKnnQuery
    have hlen : s.ids.length ≠ 0 := by
      simpa [List.length_eq_zero] using hne
    simp [hlen, hd]
  · intro hemp
    unfold HNSWVectorStore.search
    simp [hemp]

/-- Witness for the amended C5 theorem at a concrete wrong-length vector. -/
theorem dim_mismatch_behavior_witness :
    (([1] : Vec).length ≠ (HNSWVectorStore.mk0 2 5).dim) ∧
    ((HNSWVectorStore.mk0 2 5).add (some [1]) "a").1 = .error .dimMismatch ∧
    ((HNSWVectorStore.mk0 2 5).ids ≠ [] →
      (HNSWVectorStore.mk0 2 5).search (some [1]) 3 = .error .dimMismatch) ∧
    ((HNSWVectorStore.mk0 2 5).ids = [] →
      (HNSWVectorStore.mk0 2 5).search (some [1]) 3 = .ok []) :=
  ⟨by decide, dim_mismatch_behavior (HNSWVectorStore.mk0 2 5) [1] "a" 3 (by decide)⟩

/-- Claim C8 (confirmed).  On a freshly initialized index (no entries), a
query with a vector of the configured dimension returns the empty list for
every `k`, with no error: `search` returns `[]` as soon as
`len(self.ids) == 0`. -/
theorem search_fresh_empty (D cap k : ℕ) (v : Vec) (hv : v.length = D) :
    (HNSWVectorStore.mk0 D cap).search (some v) k = .ok [] := by
  unfold HNSWVectorStore.search HNSWVectorStore.mk0
  simp

/-- Witness for C8 at a concrete fresh index and query. -/
theorem search_fresh_empty_witness :
    (([1] : Vec).length = 1) ∧
    (HNSWVectorStore.mk0 1 5).search (some [1]) 0 = .ok [] :=
  ⟨by decide, search_fresh_empty 1 5 0 [1] (by decide)⟩

/-- Claim C4 (confirmed).  On an index of capacity `C ≥ 1` and dimension
`D`, inserting `C + 1` pairwise-distinct vectors of length `D` one at a
time: every prefix of at most `C` insertions runs without error, after the
first `C` the index maps exactly `C` identifiers, and the `(C+1)`-th
insertion fails with the capacity error (the explicit rejection raised by
`add_items` when `max_elements` is reached). -/
theorem capacity_boundary (C D : ℕ) (hC : 1 ≤ C)
    (items : List (Vec × String)) (hlen : items.length = C + 1)
    (hdim : ∀ p ∈ items, (p.1).length = D)
    (hdist : items.Pairwise (fun p q => p.1 ≠ q.1)) :
    (∀ i, i ≤ C → ((HNSWVectorStore.mk0 D C).addSeq (items.take i)).1 = .ok ()) ∧
    ((HNSWVectorStore.mk0 D C).addSeq (items.take C)).2.ids.length = C ∧
    (((HNSWVectorStore.mk0 D C).addSeq (items.take C)).2.add
        (some (items.getD C ([], "")).1) (items.getD C ([], "")).2).1 =
      .error .capacityExceeded := by
  have hsub : ∀ i, i ≤ C →
      ((HNSWVectorStore.mk0 D C).addSeq (items.take i)).1 = .ok () ∧
      ((HNSWVectorStore.mk0 D C).addSeq (items.take i)).2.ids =
        (items.take i).map Prod.snd ∧
      ((HNSWVectorStore.mk0 D C).addSeq (items.take i)).2.graph.length = i ∧
      ((HNSWVectorStore.mk0 D C).addSeq (items.take i)).2.dim = D ∧
      ((HNSWVectorStore.mk0 D C).addSeq (items.take i)).2.max_elements = C := by
    intro i hi
    have htl : (items.take i).length = i := by
      rw [List.length_take, hlen]; omega
    have h := addSeq_ok_of (items.take i) (HNSWVectorStore.mk0 D C)
      (fun p hp => hdim p (List.mem_of_mem_take hp)) rfl
      (by simp [HNSWVectorStore.mk0, htl]; omega)
    refine ⟨h.1, ?_, ?_, h.2.2.2.1, h.2.2.2.2⟩
    · simpa [HNSWVectorStore.mk0] using h.2.1
    · rw [h.2.2.1]; simp [HNSWVectorStore.mk0, htl]
  refine ⟨fun i hi => (hsub i hi).1, ?_, ?_⟩
  · rw [(hsub C le_rfl).2.1]
    simp [List.length_take, hlen]
  · have hCc := hsub C le_rfl
    have hmem : items.getD C ([], "") ∈ items := by
      have hlt : C < items.length := by omega
      rw [List.getD_eq_getElem items ([], "") hlt]
      exact List.getElem_mem hlt
    have h1 : (items.getD C ([], "")).1.length =
        ((HNSWVectorStore.mk0 D C).addSeq (items.take C)).2.dim := by
      rw [hCc.2.2.2.1]; exact hdim _ hmem
    have h2 : ((HNSWVectorStore.mk0 D C).addSeq (items.take C)).2.max_elements ≤
        ((HNSWVectorStore.mk0 D C).addSeq (items.take C)).2.graph.length := by
      rw [hCc.2.2.2.2, hCc.2.2.1]
    unfold HNSWVectorStore.add hnswAddItems
    simp only [List.getD, List.get?_eq_getElem?] at h1
    simp [h1, h2]

/-- Witness for C4: capacity 1, dimension 1, the two distinct vectors `[1]`
and `[2]`; the first insert succeeds and the second hits the capacity
error. -/
theorem capacity_boundary_witness :
    ((1 : ℕ) ≤ 1 ∧ ([([1], "x"), ([2], "y")] : List (Vec × String)).length = 1 + 1 ∧
      (∀ p ∈ ([([1], "x"), ([2], "y")] : List (Vec × String)), (p.1).length = 1) ∧
      ([([1], "x"), ([2], "y")] : List (Vec × String)).Pairwise
        (fun p q => p.1 ≠ q.1)) ∧
    ((∀ i, i ≤ 1 →
        ((HNSWVectorStore.mk0 1 1).addSeq
          (([([1], "x"), ([2], "y")] : List (Vec × String)).take i)).1 = .ok ()) ∧
      ((HNSWVectorStore.mk0 1 1).addSeq
          (([([1], "x"), ([2], "y")] : List (Vec × String)).take 1)).2.ids.length = 1 ∧
      (((HNSWVectorStore.mk0 1 1).addSeq
            (([([1], "x"), ([2], "y")] : List (Vec × String)).take 1)).2.add
          (some (([([1], "x"), ([2], "y")] : List (Vec × String)).getD 1 ([], "")).1)
          (([([1], "x"), ([2], "y")] : List (Vec × String)).getD 1 ([], "")).2).1 =
        .error .capacityExceeded) :=
  ⟨⟨by decide, by decide, by decide, by decide⟩,
   capacity_boundary 1 1 (by decide) [([1], "x"), ([2], "y")]
     (by decide) (by decide) (by decide)⟩

/-- Claim C10 (amended).  For every run in which all insertions into a
fresh store succeed: the identifier list is exactly the list of inserted
external identifiers in insertion order (so after `n` insertions it has
length `n` and its `i`-th element is the `i`-th insertion's identifier);
the graph labels are exactly `0 .. n-1`, assigned sequentially and never
reused; and every successful search returns at most `k` pairs, each
carrying an identifier passed to some earlier insertion.  (The claim as
frozen fails when a *failed* insertion occurs in the trace — see the
counterexample — so it is amended to traces of successful insertions.) -/
theorem store_invariant (D cap : ℕ) (items : List (Vec × String))
    (hok : ((HNSWVectorStore.mk0 D cap).addSeq items).1 = .ok ()) :
    ((HNSWVectorStore.mk0 D cap).addSeq items).2.ids = items.map Prod.snd ∧
    ((HNSWVectorStore.mk0 D cap).addSeq items).2.graph.map Prod.fst =
      List.range items.length ∧
    ∀ (q : Vec) (k : ℕ) (res : List String),
      ((HNSWVectorStore.mk0 D cap).addSeq items).2.search (some q) k = .ok res →
        res.length ≤ k ∧ ∀ vid ∈ res, vid ∈ items.map Prod.snd := by
  have hlab := addSeq_ok_labels items (HNSWVectorStore.mk0 D cap) hok
    (by simp [HNSWVectorStore.mk0])
  have hids : ((HNSWVectorStore.mk0 D cap).addSeq items).2.ids =
      items.map Prod.snd := by
    simpa [HNSWVectorStore.mk0] using hlab.1
  refine ⟨hids, ?_, ?_⟩
  · rw [hlab.2, hids]; simp
  · intro q k res hres
    have hs := search_sound _ q k res hres
    exact ⟨hs.1, fun vid hvid => hids ▸ hs.2 vid hvid⟩

/-- Counterexample for C10 as frozen: in a trace containing a failed
insertion, the invariant "after `n` successful insertions the identifier
list has length exactly `n`" is violated.  On a capacity-1 store, after
one successful and one failed insertion (`n = 1` successful), the
identifier list has length 2. -/
theorem store_invariant_fails_on_failed_insert :
    ((((HNSWVectorStore.mk0 1 1).add (some [1]) "a").1 = .ok ()) ∧
      ((((HNSWVectorStore.mk0 1 1).add (some [1]) "a").2.add
          (some [2]) "b").1 = .error .capacityExceeded)) ∧
    (((HNSWVectorStore.mk0 1 1).add (some [1]) "a").2.add
        (some [2]) "b").2.ids.length = 2 := by decide

/-- Taking `min (length l) n` elements is the same as taking `n`. -/
theorem take_min_self {α : Type} (l : List α) (n : ℕ) :
    l.take (min l.length n) = l.take n := by
  rcases le_total l.length n with h | h
  · rw [min_eq_left h, List.take_length, List.take_of_length_le h]
  · rw [min_eq_right h]

/-- Claim C9 (confirmed).  `process` works on exactly the first
`max_videos_for_llm` videos in their original order: the sample is the
list prefix of length `max_items`, and the whole of `process` gives the
same outcome (return value and final store) as if the later videos had
never been supplied — their exclusion is silent, not an error. -/
theorem process_uses_first_max_items (backend : String → Option Vec)
    (llm : String → String) (maxV : ℕ) (channel : Channel)
    (videos : List Video) (top_k : ℕ) (store : HNSWVectorStore) :
    videosSample videos maxV = videos.take maxV ∧
    process backend llm maxV channel videos top_k store =
      process backend llm maxV channel (videos.take maxV) top_k store := by
  have h1 : videosSample videos maxV = videos.take maxV :=
    take_min_self videos maxV
  have h2 : videosSample (videos.take maxV) maxV = videos.take maxV := by
    unfold videosSample
    rw [take_min_self (videos.take maxV) maxV, List.take_take, min_self]
  refine ⟨h1, ?_⟩
  unfold process
  rw [h1, h2]

/-- Witness for the amended C10 theorem on a concrete one-insertion run. -/
theorem store_invariant_witness :
    (((HNSWVectorStore.mk0 1 5).addSeq [([1], "a")]).1 = .ok ()) ∧
    ((((HNSWVectorStore.mk0 1 5).addSeq [([1], "a")]).2.ids =
        ([([1], "a")] : List (Vec × String)).map Prod.snd) ∧
      (((HNSWVectorStore.mk0 1 5).addSeq [([1], "a")]).2.graph.map Prod.fst =
        List.range ([([1], "a")] : List (Vec × String)).length) ∧
      ∀ (q : Vec) (k : ℕ) (res : List String),
        (((HNSWVectorStore.mk0 1 5).addSeq [([1], "a")]).2.search
            (some q) k = .ok res) →
          res.length ≤ k ∧
          ∀ vid ∈ res, vid ∈ ([([1], "a")] : List (Vec × String)).map Prod.snd) :=
  ⟨by decide, store_invariant 1 5 [([1], "a")] (by decide)⟩

/-- The `stored` counter of the embed-and-store loop: on a run that raises
no index error, it counts exactly the videos whose embedding succeeded. -/
theorem storeLoop_count (backend : String → Option Vec) (vids : List Video)
    (s : HNSWVectorStore) (n : ℕ)
    (hok : (storeLoop backend vids s n).1 = .ok ()) :
    (storeLoop backend vids s n).2.2 =
      n + (vids.filter
        (fun v => (embed_text backend (videoText v)).isSome)).length := by
  induction vids generalizing s n with
  | nil => simp [storeLoop]
  | cons v rest ih =>
    cases hemb : embed_text backend (videoText v) with
    | none =>
      have hstep : storeLoop backend (v :: rest) s n =
          storeLoop backend rest s n := by
        simp only [storeLoop, hemb]
      rw [hstep] at hok ⊢
      rw [ih s n hok]
      simp [List.filter_cons, hemb]
    | some emb =>
      rcases hcl : s.add (some emb) v.id with ⟨r, s'⟩
      cases r with
      | error e =>
        have hstep : (storeLoop backend (v :: rest) s n).1 = .error e := by
          simp only [storeLoop, hemb, hcl]
        rw [hstep] at hok
        simp at hok
      | ok u =>
        have hstep : storeLoop backend (v :: rest) s n =
            storeLoop backend rest s' (n + 1) := by
          simp only [storeLoop, hemb, hcl]
        rw [hstep] at hok ⊢
        rw [ih s' (n + 1) hok]
        simp [List.filter_cons, hemb]
        omega

/-- Claim C3 (counterexample).  The claim says `process` returns the pair
(count of items successfully stored, ordered neighbor list).  Two runs
that differ in their stored count (0 versus 1 items stored) return
identical values to the caller, so the returned value cannot carry the
stored count: it is only logged, not returned. -/
theorem stored_count_not_returned :
    ((process demoBackend demoLlm 12 chEmpty [] 5 (HNSWVectorStore.mk0 1 100)).1 =
      (process demoBackend demoLlm 12 chEmpty [vidA] 5
        (HNSWVectorStore.mk0 1 100)).1) ∧
    processStored demoBackend 12 [] (HNSWVectorStore.mk0 1 100) = 0 ∧
    processStored demoBackend 12 [vidA] (HNSWVectorStore.mk0 1 100) = 1 :=
  of_decide_eq_true (by with_unfolding_all rfl)

/-- Claim C3 (amended).  A non-raising `process` call returns to its caller
the LLM report together with the ordered neighbor list: the returned
`seed_neighbors` is exactly the result of querying the post-insertion
store with the channel-title seed embedding (empty when the title is
empty), and the report is the LLM output on the prompt built from the
channel, the video sample and those neighbors.  The count of items
successfully stored is not part of the returned value (see the
counterexample); it is only logged. -/
theorem process_returns_report_and_neighbors (backend : String → Option Vec)
    (llm : String → String) (maxV : ℕ) (channel : Channel)
    (videos : List Video) (top_k : ℕ) (store : HNSWVectorStore)
    (r : ProcResult)
    (h : (process backend llm maxV channel videos top_k store).1 = .ok r) :
    r.report =
      llm (build_prompt channel (videosSample videos maxV) r.seed_neighbors) ∧
    (storeLoop backend (videosSample videos maxV) store 0).2.1.search
        (if channel.title ≠ "" then embed_text backend channel.title else none)
        top_k = .ok r.seed_neighbors := by
  rcases hsl : storeLoop backend (videosSample videos maxV) store 0 with ⟨rs, s', n⟩
  cases rs with
  | error e =>
    have hps : (process backend llm maxV channel videos top_k store).1 =
        .error e := by
      simp only [process, hsl]
    rw [hps] at h
    simp at h
  | ok u =>
    cases hse : (if channel.title ≠ "" then embed_text backend channel.title
        else none) with
    | none =>
      have hps : process backend llm maxV channel videos top_k store =
          (.ok { report := llm (build_prompt channel (videosSample videos maxV) []),
                 seed_neighbors := [] }, s') := by
        simp only [process, hsl, hse]
      rw [hps] at h
      simp only [Except.ok.injEq] at h
      subst h
      refine ⟨rfl, ?_⟩
      simp only [hsl, hse]
      rfl
    | some emb =>
      cases hq : s'.search (some emb) top_k with
      | error e2 =>
        have hps : (process backend llm maxV channel videos top_k store).1 =
            .error e2 := by
          simp only [process, hsl, hse, hq]
        rw [hps] at h
        simp at h
      | ok neighbors =>
        have hps : process backend llm maxV channel videos top_k store =
            (.ok { report :=
                     llm (build_prompt channel (videosSample videos maxV) neighbors),
                   seed_neighbors := neighbors }, s') := by
          simp only [process, hsl, hse, hq]
        rw [hps] at h
        simp only [Except.ok.injEq] at h
        subst h
        refine ⟨rfl, ?_⟩
        simp only [hsl, hse]

/-- Witness for the amended C3 theorem at a concrete successful run. -/
theorem process_returns_report_and_neighbors_witness :
    ((process demoBackend demoLlm 12 chSeed [vidA] 1
        (HNSWVectorStore.mk0 1 100)).1 =
      .ok { report := "report", seed_neighbors := ["a"] }) ∧
    (({ report := "report", seed_neighbors := ["a"] } : ProcResult).report =
      demoLlm (build_prompt chSeed (videosSample [vidA] 12)
        ({ report := "report", seed_neighbors := ["a"] } : ProcResult).seed_neighbors) ∧
    (storeLoop demoBackend (videosSample [vidA] 12)
        (HNSWVectorStore.mk0 1 100) 0).2.1.search
        (if chSeed.title ≠ "" then embed_text demoBackend chSeed.title else none)
        1 =
      .ok ({ report := "report",
             seed_neighbors := ["a"] } : ProcResult).seed_neighbors) :=
  ⟨of_decide_eq_true (by with_unfolding_all rfl),
   process_returns_report_and_neighbors demoBackend demoLlm 12 chSeed [vidA] 1
     (HNSWVectorStore.mk0 1 100) { report := "report", seed_neighbors := ["a"] }
     (of_decide_eq_true (by with_unfolding_all rfl))⟩

/-- Claim C7 (counterexample).  The claim speaks of "the returned
stored-count"; but the stored count is not part of what `process` returns:
two runs whose stored counts differ (0 versus 2) hand the caller identical
values. -/
theorem stored_count_not_in_return :
    ((process demoBackend demoLlm 12 chEmpty [] 3 (HNSWVectorStore.mk0 1 100)).1 =
      (process demoBackend demoLlm 12 chEmpty [vidA, vidC] 3
        (HNSWVectorStore.mk0 1 100)).1) ∧
    processStored demoBackend 12 [] (HNSWVectorStore.mk0 1 100) = 0 ∧
    processStored demoBackend 12 [vidA, vidC] (HNSWVectorStore.mk0 1 100) = 2 :=
  of_decide_eq_true (by with_unfolding_all rfl)

/-- Claim C7 (amended).  An item whose embedding comes back `None` is
skipped: it is neither inserted nor an error (the loop continues with the
same store, same counter), and on a run without index errors the recorded
`stored` counter — logged, not returned — equals the number of items
whose embedding succeeded.  In the concrete 3-item scenario with one
empty-text item, the recorded count is 2 and the empty-text item's
identifier appears in no returned neighbor pair. -/
theorem skip_and_count (backend : String → Option Vec) (maxV : ℕ)
    (videos : List Video) (store : HNSWVectorStore)
    (hok : (storeLoop backend (videosSample videos maxV) store 0).1 = .ok ()) :
    processStored backend maxV videos store =
      ((videosSample videos maxV).filter
        (fun v => (embed_text backend (videoText v)).isSome)).length ∧
    (∀ (v : Video) (rest : List Video) (s : HNSWVectorStore) (n : ℕ),
        embed_text backend (videoText v) = none →
        storeLoop backend (v :: rest) s n = storeLoop backend rest s n) ∧
    (processStored demoBackend 12 [vidA, vidB, vidC]
        (HNSWVectorStore.mk0 1 100) = 2 ∧
      ((process demoBackend demoLlm 12 chSeed [vidA, vidB, vidC] 2
          (HNSWVectorStore.mk0 1 100)).1.toOption.map ProcResult.seed_neighbors) =
        some ["a", "c"]) := by
  refine ⟨?_, ?_, ?_⟩
  · unfold processStored
    simpa using storeLoop_count backend (videosSample videos maxV) store 0 hok
  · intro v rest s n hemb
    simp only [storeLoop, hemb]
  · exact of_decide_eq_true (by with_unfolding_all rfl)

/-- Witness for the amended C7 theorem at a concrete error-free run. -/
theorem skip_and_count_witness :
    ((storeLoop demoBackend (videosSample [vidA] 12)
        (HNSWVectorStore.mk0 1 100) 0).1 = .ok ()) ∧
    (processStored demoBackend 12 [vidA] (HNSWVectorStore.mk0 1 100) =
      ((videosSample [vidA] 12).filter
        (fun v => (embed_text demoBackend (videoText v)).isSome)).length ∧
    (∀ (v : Video) (rest : List Video) (s : HNSWVectorStore) (n : ℕ),
        embed_text demoBackend (videoText v) = none →
        storeLoop demoBackend (v :: rest) s n = storeLoop demoBackend rest s n) ∧
    (processStored demoBackend 12 [vidA, vidB, vidC]
        (HNSWVectorStore.mk0 1 100) = 2 ∧
      ((process demoBackend demoLlm 12 chSeed [vidA, vidB, vidC] 2
          (HNSWVectorStore.mk0 1 100)).1.toOption.map ProcResult.seed_neighbors) =
        some ["a", "c"])) :=
  ⟨by decide,
   skip_and_count demoBackend 12 [vidA] (HNSWVectorStore.mk0 1 100) (by decide)⟩
